import Mathlib

/-!
Shallow embedding of the `shadow_vertex` LP engine (rust_engine) over the exact
rational scalar, together with theorems checking the specification's claims.
The reference scalar instantiation of the engine is an exact rational
(`Rational64`); we embed it as `ℚ`.
-/

unseal Rat.add Rat.sub Rat.mul Rat.inv

namespace LinprogEngine

/-- Indexed map over a list, starting the index at `n`: the Lean rendering of an
in-place loop `for (i, x) in v.iter_mut().enumerate() { *x = f(i, x) }`. -/
def mapIdxFrom (f : Nat → ℚ → ℚ) : Nat → List ℚ → List ℚ
  | _, [] => []
  | n, x :: xs => f n x :: mapIdxFrom f (n + 1) xs

/-- Source: `linalg/matrix.rs`. Dense row-major matrix: `(r, c)` addresses
`data[r * cols + c]`. -/
structure Matrix where
  rows : Nat
  cols : Nat
  data : List ℚ
deriving DecidableEq

/-- Source: `Matrix::with_capacity(rows, cols)` — empty data, `rows = 0`, fixed `cols`.
(Capacity reservation has no logical content.) -/
def Matrix.with_capacity (_rows cols : Nat) : Matrix :=
  { rows := 0, cols := cols, data := [] }

/-- Source: `Index<(usize, usize)> for Matrix`: `data[r * cols + c]`.
Out-of-bounds access is a panic in Rust; here it defaults to `0`. -/
def Matrix.get (M : Matrix) (r c : Nat) : ℚ :=
  M.data.getD (r * M.cols + c) 0

/-- Source: `Matrix::push_row` — appends the entries and increments `rows`.
(The Rust code asserts `new_row.len() == cols`; the shape-mismatch panic is not
modelled, claims are stated for well-shaped inputs.) -/
def Matrix.push_row (M : Matrix) (new_row : List ℚ) : Matrix :=
  { M with rows := M.rows + 1, data := M.data ++ new_row }

/-- Elementwise rewrite of every stored entry, the Lean rendering of the nested
`for i in 0..rows { for j in .. { a[(i,j)] = f(i, j, a[(i,j)]) } }` update loops
in `pivot` (row-major: entry `idx` has row `idx / cols`, column `idx % cols`). -/
def Matrix.mapWithIdx (M : Matrix) (f : Nat → Nat → ℚ → ℚ) : Matrix :=
  { M with data := mapIdxFrom (fun idx x => f (idx / M.cols) (idx % M.cols) x) 0 M.data }

/-- Source: `linalg/matrix.rs` — `Row` is an owning copy of one matrix row. -/
structure Row where
  data : List ℚ
deriving DecidableEq

/-- Source: `Matrix::row(r)` — fresh owning copy of the row span
`data[r*cols .. r*cols+cols]`. -/
def Matrix.row (M : Matrix) (r : Nat) : Row :=
  ⟨(List.range M.cols).map fun j => M.get r j⟩

/-- Source: `linalg/matrix_row_operations.rs`, `impl Add for Row`:
`self.data.into_iter().zip(rhs.data).map(|(a, b)| a + b)`. Note the `zip`:
entries beyond the shorter row are dropped, there is no length check. -/
def Row.add (a b : Row) : Row :=
  ⟨List.zipWith (fun x y => x + y) a.data b.data⟩

/-- Source: `impl Sub for Row` (same `zip` shape as `Add`). -/
def Row.sub (a b : Row) : Row :=
  ⟨List.zipWith (fun x y => x - y) a.data b.data⟩

/-- Source: `impl Mul for Row` (elementwise, same `zip` shape). -/
def Row.mul (a b : Row) : Row :=
  ⟨List.zipWith (fun x y => x * y) a.data b.data⟩

/-- Source: `impl Div for Row` (elementwise, same `zip` shape). Division by a
zero entry panics for `Rational64` in Rust; `ℚ` division by zero yields `0`
here, and claims about `div` assume nonzero divisors. -/
def Row.div (a b : Row) : Row :=
  ⟨List.zipWith (fun x y => x / y) a.data b.data⟩

/-- Source: `model/tableau_form.rs`, `struct Tableau`. -/
structure Tableau where
  coefficients : Matrix
  slack : Matrix
  rhs : List ℚ
  basis : List Nat
  nonbasis : List Nat
  z_coeffs : List ℚ
  z_slack : List ℚ
  z_rhs : ℚ
deriving DecidableEq

/-- Source: `Tableau::rows()` — number of constraint rows. -/
def Tableau.rowsCount (t : Tableau) : Nat := t.coefficients.rows

/-- Source: `Tableau::cols()` — logical column count `n + m + 1`. -/
def Tableau.colsCount (t : Tableau) : Nat := t.coefficients.cols + t.slack.cols + 1

/-- Source: `Index<(usize, usize)> for Tableau` with `resolve_column`:
`c < a` hits `coefficients`, `a ≤ c < a+s` hits `slack`, otherwise `rhs`. -/
def Tableau.entry (t : Tableau) (r c : Nat) : ℚ :=
  if c < t.coefficients.cols then t.coefficients.get r c
  else if c < t.coefficients.cols + t.slack.cols then t.slack.get r (c - t.coefficients.cols)
  else t.rhs.getD r 0

/-- Source: `z_row()` followed by `Index<usize> for TableauRow` with
`resolve_row_column(z_coeffs.len, z_slack.len, c)`. -/
def Tableau.zRowGet (t : Tableau) (c : Nat) : ℚ :=
  if c < t.z_coeffs.length then t.z_coeffs.getD c 0
  else if c < t.z_coeffs.length + t.z_slack.length then t.z_slack.getD (c - t.z_coeffs.length) 0
  else t.z_rhs

/-- Source: `Tableau::has_negative_rhs()` — true if any `rhs[i] < 0`. -/
def Tableau.has_negative_rhs (t : Tableau) : Bool :=
  t.rhs.any fun v => decide (v < 0)

/-- Source: `Tableau::new` — basis `= [n .. n+m)`, nonbasis `= [0 .. n)` where
`m = coefficients.rows`, `n = coefficients.cols`. (The Rust shape asserts —
`slack` square `m × m`, vector lengths — are panics, not modelled; claims carry
them as hypotheses.) -/
def Tableau.new (coefficients slack : Matrix) (rhs z_coeffs z_slack : List ℚ)
    (z_rhs : ℚ) : Tableau :=
  { coefficients := coefficients
    slack := slack
    rhs := rhs
    basis := List.range' coefficients.cols coefficients.rows
    nonbasis := List.range coefficients.cols
    z_coeffs := z_coeffs
    z_slack := z_slack
    z_rhs := z_rhs }

/-- Source: `Tableau::row(r)` — owning copy `(coefficients.row r, slack.row r, rhs[r])`. -/
structure TableauRow where
  coefficients : Row
  slack : Row
  rhs : ℚ
deriving DecidableEq

/-- Source: `Tableau::row(r)`. -/
def Tableau.row (t : Tableau) (r : Nat) : TableauRow :=
  { coefficients := t.coefficients.row r
    slack := t.slack.row r
    rhs := t.rhs.getD r 0 }

/-- Shape invariants of a well-formed tableau (maintained by construction in
the Rust code: dense storage, square slack block, matching z-row lengths). -/
def Tableau.WF (t : Tableau) : Prop :=
  t.coefficients.data.length = t.coefficients.rows * t.coefficients.cols
  ∧ t.slack.data.length = t.slack.rows * t.slack.cols
  ∧ t.slack.rows = t.coefficients.rows
  ∧ t.slack.cols = t.coefficients.rows
  ∧ t.rhs.length = t.coefficients.rows
  ∧ t.z_coeffs.length = t.coefficients.cols
  ∧ t.z_slack.length = t.slack.cols
  ∧ t.basis.length = t.coefficients.rows

instance (t : Tableau) : Decidable t.WF := by
  unfold Tableau.WF
  infer_instance

/-- Source: `model/mod.rs`, `enum Goal`. -/
inductive Goal where
  | Min
  | Max
deriving DecidableEq

/-- Source: `model/problem.rs`, `enum Relation`. -/
inductive Relation where
  | LessEqual
  | GreaterEqual
  | Equal
deriving DecidableEq

/-- Source: `model/problem.rs`, `struct Constraint`. -/
structure Constraint where
  coefficients : List ℚ
  relation : Relation
  rhs : ℚ
deriving DecidableEq

/-- Source: `Constraint::normalise` — if `rhs < 0`: negate coefficients and
`rhs`, flip `≤ ↔ ≥`, keep `=`. -/
def Constraint.normalise (c : Constraint) : Constraint :=
  if c.rhs < 0 then
    { coefficients := c.coefficients.map fun v => -v
      rhs := -c.rhs
      relation :=
        match c.relation with
        | Relation.LessEqual => Relation.GreaterEqual
        | Relation.GreaterEqual => Relation.LessEqual
        | Relation.Equal => Relation.Equal }
  else c

/-- Source: `model/problem.rs`, `struct Problem`. -/
structure Problem where
  constraints : List Constraint
  objective : List ℚ
  goal : Goal
deriving DecidableEq

/-- Source: `Problem::new(objective, goal)` — no constraints yet. -/
def Problem.mk_new (objective : List ℚ) (goal : Goal) : Problem :=
  { objective := objective, goal := goal, constraints := [] }

/-- Source: `Problem::add_constraint`. -/
def Problem.add_constraint (p : Problem) (coefficients : List ℚ)
    (relation : Relation) (rhs : ℚ) : Problem :=
  { p with constraints := p.constraints ++ [{ coefficients := coefficients
                                              relation := relation
                                              rhs := rhs }] }

/-- The slack row built for normalized constraint `i` inside
`Problem::into_tableau_form`: `vec![0; m]` with `slack_row[i] = 1` for `≤`,
`−1` for `≥`, untouched (all zeros) for `=`. -/
def slackRowFor (m i : Nat) (rel : Relation) : List ℚ :=
  (List.range m).map fun j =>
    if j = i then
      match rel with
      | Relation.LessEqual => 1
      | Relation.GreaterEqual => -1
      | Relation.Equal => 0
    else 0

/-- Source: `Problem::into_tableau_form`. The Rust loop normalizes each
constraint in order and pushes: its coefficients into `a_matrix`, its rhs into
`b_vec`, its slack row into `s_matrix`, and the basis index `n + i` (every
relation branch pushes `n + i`). Iterations are independent, so the loop is
rendered as maps over the enumerated constraint list; the matrices end with
`rows = m` and data the concatenation of the pushed rows. `z_coeffs` is the
objective, negated when the goal is `Max`; `z_slack = 0^m`, `z_rhs = 0`;
`nonbasis = [0 .. n)`. -/
def Problem.into_tableau_form (p : Problem) : Tableau :=
  let m := p.constraints.length
  let n := p.objective.length
  let norm := p.constraints.map Constraint.normalise
  { coefficients := { rows := m, cols := n, data := (norm.map fun c => c.coefficients).flatten }
    slack := { rows := m, cols := m
               data := ((List.range m).zip norm |>.map fun q =>
                 slackRowFor m q.1 q.2.relation).flatten }
    rhs := norm.map fun c => c.rhs
    basis := (List.range m).map fun i => n + i
    nonbasis := List.range n
    z_coeffs := p.objective.map fun v => if p.goal = Goal.Max then -v else v
    z_slack := List.replicate m 0
    z_rhs := 0 }

/-- Stage 1 of `pivot`: the loop `for j in 0..num_cols { p_row[j] *= inv_pivot }`
through `row_mut(row_idx)`, which scales the pivot row's coefficient entries,
slack entries and rhs entry by `1 / tableau[(row_idx, col_idx)]`. -/
def Tableau.pivotStage1 (t : Tableau) (rowIdx colIdx : Nat) : Tableau :=
  let invPivot := 1 / t.entry rowIdx colIdx
  { t with
    coefficients := t.coefficients.mapWithIdx fun i _ x =>
      if i = rowIdx then x * invPivot else x
    slack := t.slack.mapWithIdx fun i _ x =>
      if i = rowIdx then x * invPivot else x
    rhs := mapIdxFrom (fun i x => if i = rowIdx then x * invPivot else x) 0 t.rhs }

/-- Stage 2 of `pivot`: for every row `i ≠ row_idx`, subtract
`factor · normalized` where `factor = self[(i, col_idx)]` is read from the
row-scaled tableau (the other-row updates do not disturb row `i` before its
own update); logical columns `j < var_cols` read `normalized_vars[j]`
(coefficient piece at `j`, slack piece at `coefficients.cols + j`) and the
rhs entry (`current_row[var_cols]`) reads `normalized_rhs`. -/
def Tableau.pivotStage2 (t1 : Tableau) (rowIdx colIdx : Nat)
    (normalizedVars : List ℚ) (normalizedRhs : ℚ) : Tableau :=
  { t1 with
    coefficients := t1.coefficients.mapWithIdx fun i j x =>
      if i = rowIdx then x else x - t1.entry i colIdx * normalizedVars.getD j 0
    slack := t1.slack.mapWithIdx fun i j x =>
      if i = rowIdx then x
      else x - t1.entry i colIdx * normalizedVars.getD (t1.coefficients.cols + j) 0
    rhs := mapIdxFrom
      (fun i x => if i = rowIdx then x else x - t1.entry i colIdx * normalizedRhs) 0 t1.rhs }

/-- Source: `model/tableau_operations.rs`, `Tableau::pivot(row_idx, col_idx)`.
Stage 1 scales the pivot row (all logical columns, rhs included) by
`1 / pivot_element`; `normalized_vars` then snapshots the scaled pivot row at
logical columns `0 .. var_cols` and `normalized_rhs` its rhs entry
(`row_mut(row_idx)[var_cols]` resolves to `rhs[row_idx]`). Stage 2 subtracts
`factor · normalized` from every other row. Stage 3 applies the same update to
the z-row with the pre-pivot reduced cost `z_factor = z_row()[col_idx]`; the
z-row loop over `j < var_cols` lands in `z_coeffs`/`z_slack` through their own
lengths (which equal `n`/`m` for a well-formed tableau). Finally
`z_rhs -= z_factor · normalized_rhs` and `basis[row_idx] = col_idx`;
`nonbasis` is not touched. -/
def Tableau.pivot (t : Tableau) (rowIdx colIdx : Nat) : Tableau :=
  let varCols := t.colsCount - 1
  let zFactor := t.zRowGet colIdx
  let t1 := t.pivotStage1 rowIdx colIdx
  let normalizedVars : List ℚ := (List.range varCols).map fun j => t1.entry rowIdx j
  let normalizedRhs : ℚ := t1.rhs.getD rowIdx 0
  let t2 := t1.pivotStage2 rowIdx colIdx normalizedVars normalizedRhs
  { t2 with
    z_coeffs := mapIdxFrom (fun j x => x - zFactor * normalizedVars.getD j 0) 0 t2.z_coeffs
    z_slack := mapIdxFrom
      (fun j x => x - zFactor * normalizedVars.getD (t2.z_coeffs.length + j) 0) 0 t2.z_slack
    z_rhs := t2.z_rhs - zFactor * normalizedRhs
    basis := t2.basis.set rowIdx colIdx }

/-- First-minimizer scan shared by the selection loops: walk `j = 0, 1, …, m-1`,
keep `(j, key j)` when `p j` holds and either nothing is held yet or
`key j` is strictly below the held key (so ties keep the earliest index).
This is the `(best, min_val)` accumulator pattern of `ratio_test` and
`find_shadow_pivot_col`. -/
def argminFold (p : Nat → Bool) (key : Nat → ℚ) (m : Nat) : Option (Nat × ℚ) :=
  (List.range m).foldl
    (fun acc j =>
      if p j then
        match acc with
        | none => some (j, key j)
        | some (bj, bk) => if key j < bk then some (j, key j) else some (bj, bk)
      else acc)
    none

/-- Source: `Tableau::ratio_test(col)` — over rows `i` with `tableau[(i, col)] > 0`,
keep the row of minimum ratio `rhs[i] / tableau[(i, col)]`, first row on ties;
`None` when no row qualifies. The loop's `(best_row, min_ratio)` accumulator is
`argminFold` with guard `entry > 0` and key `rhs[i] / entry`. -/
def Tableau.ratio_test (t : Tableau) (col : Nat) : Option Nat :=
  (argminFold (fun i => decide (0 < t.entry i col))
    (fun i => t.rhs.getD i 0 / t.entry i col) t.rowsCount).map Prod.fst

/-- Source: `shadow_vertex_simplex.rs`, `EpsilonThreshold for Rational64`:
exact strict positivity. -/
def isStrictlyPositive (x : ℚ) : Bool :=
  decide (0 < x)

/-- The guard sequence of `find_shadow_pivot_col`'s loop body for column `j`
(the conjunction of the four `continue` tests, in source order):
`r_d_j ≥ 0`, `r_c_j < 0`, `denom = r_d_j − r_c_j` strictly positive, and
`λ_j = r_d_j / denom` in `(0, 1]`. -/
def shadowCandidate (r_d r_c : List ℚ) (j : Nat) : Bool :=
  let rdj := r_d.getD j 0
  let rcj := r_c.getD j 0
  !decide (rdj < 0) && decide (rcj < 0) && isStrictlyPositive (rdj - rcj)
    && !decide (rdj / (rdj - rcj) ≤ 0) && !decide (1 < rdj / (rdj - rcj))

/-- The parametric breakpoint `λ_j = r_d_j / (r_d_j − r_c_j)`. -/
def shadowLambda (r_d r_c : List ℚ) (j : Nat) : ℚ :=
  r_d.getD j 0 / (r_d.getD j 0 - r_c.getD j 0)

/-- Source: the fallback loop at the end of `find_shadow_pivot_col`:
`for (j, &r_c_j) in r_c.iter().enumerate() { if r_c_j < zero { return Some(j) } }`. -/
def firstNegIdx : List ℚ → Option Nat
  | [] => none
  | x :: xs => if x < 0 then some 0 else (firstNegIdx xs).map (· + 1)

/-- Source: `ShadowVertexSimplexSolver::find_shadow_pivot_col(r_d, r_c)` —
scan `j` in `0 .. r_d.len()`, keep the candidate (see `shadowCandidate`) of
minimum `λ_j`, ties to the smallest index; when no candidate exists, fall back
to the first `j` with `r_c_j < 0`; `None` if that also fails. -/
def find_shadow_pivot_col (r_d r_c : List ℚ) : Option Nat :=
  match argminFold (shadowCandidate r_d r_c) (shadowLambda r_d r_c) r_d.length with
  | some q => some q.1
  | none => firstNegIdx r_c

/-- Source: `solvers/solver.rs`, `enum Status`. -/
inductive Status where
  | InProgress
  | Optimal
  | Infeasible
  | Unbounded
deriving DecidableEq

/-- Source: `solvers/solver.rs`, `struct Step`. -/
structure Step where
  iteration : Nat
  primal : List ℚ
  objective_value : ℚ
  status : Status
deriving DecidableEq

/-- Source: `solvers/solver.rs`, `struct Solution`. -/
structure Solution where
  x : List ℚ
  objective : ℚ
  status : Status
deriving DecidableEq

/-- Modelled from the spec: `enum PivotResult` (`Optimal`, `Unbounded`, or
`Pivot(r, k)`), returned by the combined pivot selectors. Its definition is
not among the provided sources (only `pub use tableau_operations::PivotResult`
and its pattern matches are), so it is reconstructed from §4.G of the spec. -/
inductive PivotResult where
  | Pivot (row col : Nat)
  | Optimal
  | Unbounded
deriving DecidableEq

/-- Modelled from the spec: `Tableau::current_vertex(n_vars)` (§4.G), whose
definition is absent from the provided sources. "Initialize an `n_vars`-length
vector of zeros. For each `(row, var_idx) ∈ enumerate(basis)` with
`var_idx < n_vars`, set `vertex[var_idx] = rhs[row]`." -/
def Tableau.current_vertex (t : Tableau) (nVars : Nat) : List ℚ :=
  t.basis.enum.foldl
    (fun v q => if q.2 < nVars then v.set q.2 (t.rhs.getD q.1 0) else v)
    (List.replicate nVars 0)

/-- Source: `solvers/simplex.rs`, `struct SimplexSolver` (fields used by the
driver surface). -/
structure SimplexSolver where
  tableau : Option Tableau
  iteration : Nat
  n_vars : Nat
  done : Bool
  lastStep : Option Step
deriving DecidableEq

/-- Source: `SimplexSolver::new()`. -/
def SimplexSolver.new : SimplexSolver :=
  { tableau := none, iteration := 0, n_vars := 0, done := false, lastStep := none }

/-- Source: `SimplexSolver::find_initial_bfs` — error iff a tableau is present
and has a negative rhs entry (`map_or(false, has_negative_rhs)`); the body
performs no mutation, so the solver is returned unchanged. -/
def SimplexSolver.find_initial_bfs (s : SimplexSolver) :
    Except String Bool × SimplexSolver :=
  if (s.tableau.map Tableau.has_negative_rhs).getD false then
    (Except.error "Infeasible: initial tableau has negative RHS", s)
  else (Except.ok true, s)

/-- Source: `experimental_dual_simplex.rs`, `enum Phase`. -/
inductive Phase where
  | OptimizeD
  | OptimizeC
deriving DecidableEq

/-- Source: `experimental_dual_simplex.rs`, `struct TwoPhaseSimplexSolver`. -/
structure TwoPhaseSimplexSolver where
  tableau : Option Tableau
  n_vars : Nat
  iteration : Nat
  done : Bool
  lastStep : Option Step
  phase : Phase
  c_coeffs : List ℚ
  c_slack : List ℚ
  c_rhs : ℚ
deriving DecidableEq

/-- Source: `TwoPhaseSimplexSolver::new()`. -/
def TwoPhaseSimplexSolver.new : TwoPhaseSimplexSolver :=
  { tableau := none, n_vars := 0, iteration := 0, done := false, lastStep := none
    phase := Phase.OptimizeD, c_coeffs := [], c_slack := [], c_rhs := 0 }

/-- Source: `TwoPhaseSimplexSolver::find_initial_bfs` — same body as the
primal solver's. -/
def TwoPhaseSimplexSolver.find_initial_bfs (s : TwoPhaseSimplexSolver) :
    Except String Bool × TwoPhaseSimplexSolver :=
  if (s.tableau.map Tableau.has_negative_rhs).getD false then
    (Except.error "Infeasible: initial tableau has negative RHS", s)
  else (Except.ok true, s)

/-- Modelled from the spec: the fused `sub_assign_scaled(other, k)` on a
mutable z-row view (`TableauRowMut`), whose definition is absent from the
provided sources (only its call site in `set_z_to_c` is). §4.B/§4.E:
`self[i] -= other[i]·k` on each piece and a single scalar fused
multiply-subtract on the rhs; elementwise over zipped entries. -/
def Tableau.zSubAssignScaled (t : Tableau) (other : TableauRow) (k : ℚ) : Tableau :=
  { t with
    z_coeffs := List.zipWith (fun a b => a - b * k) t.z_coeffs other.coefficients.data
    z_slack := List.zipWith (fun a b => a - b * k) t.z_slack other.slack.data
    z_rhs := t.z_rhs - other.rhs * k }

/-- Source: `TwoPhaseSimplexSolver::set_z_to_c`. Snapshot the basic-variable
costs `c_b`; copy `(c_coeffs, c_slack, c_rhs)` into the z-row; snapshot the
constraint rows; subtract `c_b[i] · row_i` from the z-row for each `i` (fused
`sub_assign_scaled`); then `z_rhs = −z_rhs; z_rhs += c_rhs; z_rhs += c_rhs`.
The Rust `expect("tableau")` panic on an uninitialized solver is modelled as
the identity, and the direct `c_coeffs[var_idx]` indexing as `getD`. -/
def TwoPhaseSimplexSolver.set_z_to_c (s : TwoPhaseSimplexSolver) :
    TwoPhaseSimplexSolver :=
  match s.tableau with
  | none => s
  | some tab0 =>
    let n := s.c_coeffs.length
    let m := tab0.rowsCount
    let c_b : List ℚ := tab0.basis.map fun varIdx =>
      if varIdx < n then s.c_coeffs.getD varIdx 0 else s.c_slack.getD (varIdx - n) 0
    let tab1 : Tableau :=
      { tab0 with z_coeffs := s.c_coeffs, z_slack := s.c_slack, z_rhs := s.c_rhs }
    let constraintRows : List TableauRow := (List.range m).map fun i => tab1.row i
    let tab2 : Tableau := (List.range m).foldl
      (fun tb i => tb.zSubAssignScaled (constraintRows.getD i ⟨⟨[]⟩, ⟨[]⟩, 0⟩) (c_b.getD i 0))
      tab1
    let tab3 : Tableau := { tab2 with z_rhs := -tab2.z_rhs + s.c_rhs + s.c_rhs }
    { s with tableau := some tab3 }

/-- Source: `shadow_vertex_simplex.rs`, `struct ShadowVertexSimplexSolver`. -/
structure ShadowVertexSimplexSolver where
  tableau : Option Tableau
  n_vars : Nat
  iteration : Nat
  done : Bool
  lastStep : Option Step
  d_coeffs : List ℚ
  d_slack : List ℚ
  d_rhs : ℚ
  c_coeffs : List ℚ
  c_slack : List ℚ
  c_rhs : ℚ
deriving DecidableEq

/-- Source: `ShadowVertexSimplexSolver::new()` — auxiliary objective `d = 0`
(empty vectors until `init`). -/
def ShadowVertexSimplexSolver.new : ShadowVertexSimplexSolver :=
  { tableau := none, n_vars := 0, iteration := 0, done := false, lastStep := none
    d_coeffs := [], d_slack := [], d_rhs := 0
    c_coeffs := [], c_slack := [], c_rhs := 0 }

/-- Source: `ShadowVertexSimplexSolver::set_auxiliary_objective`. -/
def ShadowVertexSimplexSolver.set_auxiliary_objective
    (s : ShadowVertexSimplexSolver) (d_coeffs d_slack : List ℚ) (d_rhs : ℚ) :
    ShadowVertexSimplexSolver :=
  { s with d_coeffs := d_coeffs, d_slack := d_slack, d_rhs := d_rhs }

/-- Source: `Solver::init` for `ShadowVertexSimplexSolver`, on the
`InitSource::Problem` branch of `into_tableau_and_n_vars` (the claims under
check init from a `Problem`): store `n_vars` and the z-row as `c`; default the
auxiliary objective to zero vectors when `d_coeffs` is empty; install the
tableau and clear the iteration state. -/
def ShadowVertexSimplexSolver.initProblem (s : ShadowVertexSimplexSolver)
    (p : Problem) : ShadowVertexSimplexSolver :=
  let nv := p.objective.length
  let tableau := p.into_tableau_form
  let s1 := { s with n_vars := nv
                     c_coeffs := tableau.z_coeffs
                     c_slack := tableau.z_slack
                     c_rhs := tableau.z_rhs }
  let s2 :=
    if s1.d_coeffs.isEmpty then
      { s1 with d_coeffs := List.replicate tableau.z_coeffs.length (0 : ℚ)
                d_slack := List.replicate tableau.z_slack.length (0 : ℚ)
                d_rhs := 0 }
    else s1
  { s2 with tableau := some tableau, iteration := 0, done := false, lastStep := none }

/-- Source: `ShadowVertexSimplexSolver::find_initial_bfs` — same body as the
primal solver's; no mutation. -/
def ShadowVertexSimplexSolver.find_initial_bfs (s : ShadowVertexSimplexSolver) :
    Except String Bool × ShadowVertexSimplexSolver :=
  if (s.tableau.map Tableau.has_negative_rhs).getD false then
    (Except.error "Infeasible: initial tableau has negative RHS", s)
  else (Except.ok true, s)

/-- Source: `ShadowVertexSimplexSolver::reduced_costs(tableau, n, w_coeffs, w_slack)` —
for each joint column `j < n + m`:
`w_j − Σ_i w_{basis[i]} · tableau[(i, j)]`, with missing `w` entries read as `0`
(`get(..).copied().unwrap_or(zero)`). -/
def reducedCosts (tableau : Tableau) (n : Nat) (wCoeffs wSlack : List ℚ) : List ℚ :=
  let m := tableau.rowsCount
  (List.range (n + m)).map fun j =>
    let wj := if j < n then wCoeffs.getD j 0 else wSlack.getD (j - n) 0
    let dot := tableau.basis.enum.foldl
      (fun acc q =>
        let wbi := if q.2 < n then wCoeffs.getD q.2 0 else wSlack.getD (q.2 - n) 0
        acc + wbi * tableau.entry q.1 j)
      0
    wj - dot

/-- Source: `ShadowVertexSimplexSolver::current_shadow_point` — returns
`(d_rhs + Σ_i d_{basis[i]} · rhs[i], z_rhs)`. The `expect` panic on an
uninitialized solver is modelled as `(0, 0)`. -/
def ShadowVertexSimplexSolver.currentShadowPoint
    (s : ShadowVertexSimplexSolver) : ℚ × ℚ :=
  match s.tableau with
  | none => (0, 0)
  | some tab =>
    let n := tab.coefficients.cols
    let dVal := tab.basis.enum.foldl
      (fun acc q =>
        let coef := if q.2 < n then s.d_coeffs.getD q.2 0 else s.d_slack.getD (q.2 - n) 0
        acc + coef * tab.rhs.getD q.1 0)
      s.d_rhs
    (dVal, tab.z_rhs)

/-- Source: `ShadowVertexSimplexSolver::try_pivot_step` — compute `r_d` from
the stored `d` and `r_c` as the current z-row (coeffs then slack), choose the
entering column with `find_shadow_pivot_col` (`Optimal` when none), then the
leaving row with `ratio_test` (`Unbounded` when none). The `expect` panic on
an uninitialized solver is modelled as `Optimal`. -/
def ShadowVertexSimplexSolver.try_pivot_step
    (s : ShadowVertexSimplexSolver) : PivotResult :=
  match s.tableau with
  | none => PivotResult.Optimal
  | some tab =>
    let n := tab.coefficients.cols
    let r_d := reducedCosts tab n s.d_coeffs s.d_slack
    let r_c := tab.z_coeffs ++ tab.z_slack
    match find_shadow_pivot_col r_d r_c with
    | none => PivotResult.Optimal
    | some col =>
      match tab.ratio_test col with
      | some row => PivotResult.Pivot row col
      | none => PivotResult.Unbounded

/-- Source: `Solver::step` for `ShadowVertexSimplexSolver` — one pivot (or a
terminal commit), then emit a `Step` with the current vertex and `z_rhs`. -/
def ShadowVertexSimplexSolver.step (s : ShadowVertexSimplexSolver) :
    Step × ShadowVertexSimplexSolver :=
  let res :=
    match s.try_pivot_step with
    | PivotResult.Pivot row col =>
      (Status.InProgress,
        { s with tableau := s.tableau.map fun t => Tableau.pivot t row col
                 iteration := s.iteration + 1 })
    | PivotResult.Optimal => (Status.Optimal, { s with done := true })
    | PivotResult.Unbounded => (Status.Unbounded, { s with done := true })
  let s2 := res.2
  match s2.tableau with
  | none =>
    let st : Step := { iteration := s2.iteration, primal := [], objective_value := 0
                       status := res.1 }
    (st, { s2 with lastStep := some st })
  | some tab =>
    let st : Step := { iteration := s2.iteration
                       primal := tab.current_vertex s2.n_vars
                       objective_value := tab.z_rhs
                       status := res.1 }
    (st, { s2 with lastStep := some st })

/-- Source: `shadow_vertex_simplex.rs`, `struct ShadowSolveResult`. -/
structure ShadowSolveResult where
  solution : Solution
  history : List Step
  shadow_points : List (ℚ × ℚ)
deriving DecidableEq

/-- Source: the `while !self.is_done()` loop of `solve_with_shadow_history`:
push the previous step into `history` and the current `(d·x, c·x)` point into
`shadow_points`, then step again. The Rust loop has no fuel; here `none`
means the fuel ran out before `done` was observed. -/
def ShadowVertexSimplexSolver.solveLoop :
    Nat → ShadowVertexSimplexSolver → Step → List Step → List (ℚ × ℚ) →
    Option (ShadowVertexSimplexSolver × Step × List Step × List (ℚ × ℚ))
  | 0, _, _, _, _ => none
  | fuel + 1, s, lastSt, history, pts =>
    if s.done then some (s, lastSt, history, pts)
    else
      let history2 := history ++ [lastSt]
      let pts2 := pts ++ [s.currentShadowPoint]
      let q := s.step
      ShadowVertexSimplexSolver.solveLoop fuel q.2 q.1 history2 pts2

/-- Source: `ShadowVertexSimplexSolver::solve_with_shadow_history` — init,
feasibility gate (`?` propagates the error), record the initial shadow point,
drive `step()` until `is_done()`, then push the final step and point and
package the solution by the last status (`InProgress` ⇒
`"Solver stopped prematurely"`). `none` only when the fuel bound is hit. -/
def ShadowVertexSimplexSolver.solve_with_shadow_history
    (s0 : ShadowVertexSimplexSolver) (fuel : Nat) (p : Problem) :
    Option (Except String ShadowSolveResult) :=
  let s := s0.initProblem p
  match (s.find_initial_bfs).1 with
  | Except.error e => some (Except.error e)
  | Except.ok _ =>
    let pts0 := [s.currentShadowPoint]
    let q := s.step
    match ShadowVertexSimplexSolver.solveLoop fuel q.2 q.1 [] pts0 with
    | none => none
    | some (sF, lastSt, history0, pts1) =>
      let history := history0 ++ [lastSt]
      let pts := pts1 ++ [sF.currentShadowPoint]
      some <|
        match lastSt.status with
        | Status.Optimal =>
          Except.ok { solution := { x := lastSt.primal
                                    objective := lastSt.objective_value
                                    status := Status.Optimal }
                      history := history, shadow_points := pts }
        | Status.Infeasible =>
          Except.ok { solution := { x := [], objective := 0, status := Status.Infeasible }
                      history := history, shadow_points := pts }
        | Status.Unbounded =>
          Except.ok { solution := { x := [], objective := 0, status := Status.Unbounded }
                      history := history, shadow_points := pts }
        | Status.InProgress => Except.error "Solver stopped prematurely"

/-! ### Concrete instances used by witnesses and counterexamples -/

/-- Spec §8 scenario 1/5: `Max 3x + 2y` s.t. `x + y ≤ 4`, `2x + y ≤ 5`. -/
def exampleProblem : Problem :=
  ((Problem.mk_new [3, 2] Goal.Max).add_constraint [1, 1] Relation.LessEqual 4).add_constraint
    [2, 1] Relation.LessEqual 5

/-- The initial tableau of `exampleProblem`. -/
def exampleTableau : Tableau :=
  exampleProblem.into_tableau_form

/-- Spec §8 scenario 3: `Max x + y` s.t. `x ≤ 5`, `y ≥ 2`, `x + y = 10`
(one constraint of each relation). -/
def mixedProblem : Problem :=
  (((Problem.mk_new [1, 1] Goal.Max).add_constraint [1, 0] Relation.LessEqual 5).add_constraint
    [0, 1] Relation.GreaterEqual 2).add_constraint [1, 1] Relation.Equal 10

/-- A directly-built tableau with a negative rhs entry (reachable through
`InitSource::StandardForm` or direct construction; `into_tableau_form`
normalizes its rhs to be nonnegative). -/
def negRhsTableau : Tableau :=
  Tableau.new ⟨1, 1, [1]⟩ ⟨1, 1, [1]⟩ [-1] [0] [0] 0

/-- A primal solver initialized with `exampleTableau`. -/
def exampleSimplexSolver : SimplexSolver :=
  { SimplexSolver.new with tableau := some exampleTableau }

/-- A two-phase solver holding `exampleTableau` after one pivot at `(1, 0)`,
with the stored objective `c` of `exampleProblem` and constant `c_rhs = 7`. -/
def exampleTwoPhaseSolver : TwoPhaseSimplexSolver :=
  { TwoPhaseSimplexSolver.new with
    tableau := some (exampleTableau.pivot 1 0)
    c_coeffs := [-3, -2], c_slack := [0, 0], c_rhs := 7 }

/-- A shadow solver initialized with `exampleTableau`. -/
def exampleShadowSolver : ShadowVertexSimplexSolver :=
  { ShadowVertexSimplexSolver.new with tableau := some exampleTableau }

/-- The full shadow-vertex run of spec §8 scenario 5 (`d = 0` by default),
with fuel amply covering its three steps. -/
def exampleShadowResult : Option (Except String ShadowSolveResult) :=
  ShadowVertexSimplexSolver.new.solve_with_shadow_history 10 exampleProblem

/-- The record returned by the scenario-5 run. -/
def exampleShadowRecord : ShadowSolveResult :=
  match exampleShadowResult with
  | some (Except.ok r) => r
  | _ => { solution := { x := [], objective := 0, status := Status.InProgress }
           history := [], shadow_points := [] }

/-! ### Specification-side predicates (stating claims, compared against the
source-derived definitions) -/

/-- The candidate condition of the spec's parametric entering rule (§4.H.3),
written out: `r_d_j ≥ 0`, `r_c_j < 0`, denominator strictly positive under the
scalar's positivity predicate, and `λ_j ∈ (0, 1]`. -/
def shadowCandidateSpec (r_d r_c : List ℚ) (j : Nat) : Prop :=
  0 ≤ r_d.getD j 0 ∧ r_c.getD j 0 < 0
    ∧ isStrictlyPositive (r_d.getD j 0 - r_c.getD j 0) = true
    ∧ 0 < shadowLambda r_d r_c j ∧ shadowLambda r_d r_c j ≤ 1

instance (r_d r_c : List ℚ) (j : Nat) : Decidable (shadowCandidateSpec r_d r_c j) := by
  unfold shadowCandidateSpec
  infer_instance

/-- The basis/nonbasis partition invariant of the spec (§3, "Tableau
invariants"): `basis ∪ nonbasis = {0 .. n+m}`, disjoint, for
`n = coefficients.cols` structural and `slack.cols` slack columns. -/
def Tableau.basisPartitionInv (t : Tableau) : Prop :=
  (∀ v, ¬(v ∈ t.basis ∧ v ∈ t.nonbasis))
  ∧ ∀ v, (v ∈ t.basis ∨ v ∈ t.nonbasis) ↔
      v < t.coefficients.cols + t.slack.cols

/-! ## Theorems

General list/matrix lemmas first, then the claim theorems. -/

theorem length_mapIdxFrom (f : Nat → ℚ → ℚ) (n : Nat) (l : List ℚ) :
    (mapIdxFrom f n l).length = l.length := by
  induction l generalizing n with
  | nil => rfl
  | cons x xs ih => simp [mapIdxFrom, ih]

theorem getD_mapIdxFrom (f : Nat → ℚ → ℚ) (n : Nat) (l : List ℚ) (i : Nat)
    (h : i < l.length) :
    (mapIdxFrom f n l).getD i 0 = f (n + i) (l.getD i 0) := by
  induction l generalizing n i with
  | nil => simp at h
  | cons x xs ih =>
    cases i with
    | zero => simp [mapIdxFrom]
    | succ j =>
      simp only [mapIdxFrom, List.getD_cons_succ]
      rw [ih (n + 1) j (by simpa using h)]
      ring_nf

theorem getD_set_self {α : Type} (l : List α) (i : Nat) (v : α) (d : α)
    (h : i < l.length) :
    (l.set i v).getD i d = v := by
  induction l generalizing i with
  | nil => simp at h
  | cons x xs ih =>
    cases i with
    | zero => rfl
    | succ j => simpa using ih j (by simpa using h)

theorem getD_set_ne {α : Type} (l : List α) (i j : Nat) (v : α) (d : α)
    (hij : i ≠ j) :
    (l.set i v).getD j d = l.getD j d := by
  induction l generalizing i j with
  | nil => rfl
  | cons x xs ih =>
    cases i with
    | zero => cases j with
      | zero => exact absurd rfl hij
      | succ k => rfl
    | succ i2 => cases j with
      | zero => rfl
      | succ k => simpa using ih i2 k (by omega)

theorem getD_zipWith (f : ℚ → ℚ → ℚ) (l1 l2 : List ℚ) (i : Nat)
    (h1 : i < l1.length) (h2 : i < l2.length) :
    (List.zipWith f l1 l2).getD i 0 = f (l1.getD i 0) (l2.getD i 0) := by
  induction l1 generalizing l2 i with
  | nil => simp at h1
  | cons x xs ih =>
    cases l2 with
    | nil => simp at h2
    | cons y ys =>
      cases i with
      | zero => rfl
      | succ j =>
        simpa using ih ys j (by simpa using h1) (by simpa using h2)

theorem getD_range_map {α : Type} (f : Nat → α) (d : α) (m i : Nat) (h : i < m) :
    ((List.range m).map f).getD i d = f i := by
  rw [List.getD_eq_getElem _ _ (by simpa using h)]
  simp

theorem getD_map_lt {α β : Type} (f : α → β) (l : List α) (i : Nat) (d : β) (d2 : α)
    (h : i < l.length) :
    (l.map f).getD i d = f (l.getD i d2) := by
  rw [List.getD_eq_getElem _ _ (by simpa using h), List.getD_eq_getElem _ _ h]
  simp

theorem getD_flatten_uniform (rows : List (List ℚ)) (w : Nat)
    (hw : ∀ r ∈ rows, r.length = w) :
    ∀ i j, i < rows.length → j < w →
      rows.flatten.getD (i * w + j) 0 = (rows.getD i []).getD j 0 := by
  induction rows with
  | nil => intro i j hi _; simp at hi
  | cons r rest ih =>
    intro i j hi hj
    have hrw : r.length = w := hw r (by simp)
    cases i with
    | zero =>
      simp only [List.flatten_cons, Nat.zero_mul, Nat.zero_add, List.getD_cons_zero]
      exact List.getD_append _ _ _ _ (by omega)
    | succ i2 =>
      have hidx : (i2 + 1) * w + j = r.length + (i2 * w + j) := by
        rw [hrw]; ring
      simp only [List.flatten_cons, hidx, List.getD_cons_succ]
      rw [List.getD_append_right _ _ _ _ (by omega)]
      have : r.length + (i2 * w + j) - r.length = i2 * w + j := by omega
      rw [this]
      exact ih (fun q hq => hw q (by simp [hq])) i2 j (by simpa using hi) hj

theorem Matrix.get_mapWithIdx (M : Matrix) (f : Nat → Nat → ℚ → ℚ) (r c : Nat)
    (hlen : M.data.length = M.rows * M.cols) (hr : r < M.rows) (hc : c < M.cols) :
    (M.mapWithIdx f).get r c = f r c (M.get r c) := by
  have hidx : r * M.cols + c < M.data.length := by
    rw [hlen]
    calc r * M.cols + c < r * M.cols + M.cols := by omega
    _ = (r + 1) * M.cols := by ring
    _ ≤ M.rows * M.cols := Nat.mul_le_mul_right _ (by omega)
  have hdiv : (r * M.cols + c) / M.cols = r := by
    rw [Nat.add_comm, Nat.add_mul_div_right _ _ (by omega : 0 < M.cols),
      Nat.div_eq_of_lt hc, Nat.zero_add]
  have hmod : (r * M.cols + c) % M.cols = c := by
    rw [Nat.add_comm, Nat.add_mul_mod_self_right, Nat.mod_eq_of_lt hc]
  unfold Matrix.mapWithIdx Matrix.get
  simp only
  rw [getD_mapIdxFrom _ _ _ _ hidx, Nat.zero_add, hdiv, hmod]

theorem Matrix.mapWithIdx_rows (M : Matrix) (f : Nat → Nat → ℚ → ℚ) :
    (M.mapWithIdx f).rows = M.rows := rfl

theorem Matrix.mapWithIdx_cols (M : Matrix) (f : Nat → Nat → ℚ → ℚ) :
    (M.mapWithIdx f).cols = M.cols := rfl

theorem Matrix.mapWithIdx_data_length (M : Matrix) (f : Nat → Nat → ℚ → ℚ) :
    (M.mapWithIdx f).data.length = M.data.length := length_mapIdxFrom ..

theorem argminFold_succ (p : Nat → Bool) (key : Nat → ℚ) (m : Nat) :
    argminFold p key (m + 1) =
      (if p m then
        match argminFold p key m with
        | none => some (m, key m)
        | some (bj, bk) => if key m < bk then some (m, key m) else some (bj, bk)
      else argminFold p key m) := by
  unfold argminFold
  rw [List.range_succ, List.foldl_append]
  rfl

theorem argminFold_eq_none_iff (p : Nat → Bool) (key : Nat → ℚ) (m : Nat) :
    argminFold p key m = none ↔ ∀ j, j < m → p j = false := by
  induction m with
  | zero => simp [argminFold]
  | succ m2 ih =>
    rw [argminFold_succ]
    constructor
    · intro h
      by_cases hp : p m2 = true
      · rw [if_pos hp] at h
        rcases hm : argminFold p key m2 with _ | q
        · rw [hm] at h; simp at h
        · rw [hm] at h
          rcases q with ⟨bj, bk⟩
          by_cases hlt : key m2 < bk <;> simp [hlt] at h
      · rw [if_neg hp] at h
        intro j hj
        rcases Nat.lt_succ_iff_lt_or_eq.mp hj with hj2 | hj2
        · exact (ih.mp h) j hj2
        · subst hj2; exact Bool.not_eq_true _ |>.mp hp
    · intro h
      have hp : p m2 = false := h m2 (Nat.lt_succ_self _)
      rw [hp]
      simp only [Bool.false_eq_true, if_false]
      exact ih.mpr fun j hj => h j (Nat.lt_succ_of_lt hj)

theorem argminFold_eq_some (p : Nat → Bool) (key : Nat → ℚ) (m : Nat) :
    ∀ j v, argminFold p key m = some (j, v) →
      j < m ∧ p j = true ∧ v = key j
      ∧ (∀ i, i < m → p i = true → v ≤ key i)
      ∧ (∀ i, i < j → p i = true → v < key i) := by
  induction m with
  | zero => intro j v h; simp [argminFold] at h
  | succ m2 ih =>
    intro j v h
    rw [argminFold_succ] at h
    by_cases hp : p m2 = true
    · rw [if_pos hp] at h
      rcases hm : argminFold p key m2 with _ | ⟨bj, bk⟩
      · rw [hm] at h
        simp only [Option.some.injEq, Prod.mk.injEq] at h
        obtain ⟨hj, hv⟩ := h
        subst hj; subst hv
        have hnone := (argminFold_eq_none_iff p key m2).mp hm
        refine ⟨Nat.lt_succ_self _, hp, rfl, ?_, ?_⟩
        · intro i hi hpi
          rcases Nat.lt_succ_iff_lt_or_eq.mp hi with hi2 | hi2
          · exact absurd hpi (by simp [hnone i hi2])
          · subst hi2; exact le_refl _
        · intro i hi hpi
          exact absurd hpi (by simp [hnone i hi])
      · rw [hm] at h
        obtain ⟨hbj, hbp, hbv, hble, hblt⟩ := ih bj bk hm
        replace h : (if key m2 < bk then some (m2, key m2) else some (bj, bk))
            = some (j, v) := h
        by_cases hlt : key m2 < bk
        · rw [if_pos hlt] at h
          simp only [Option.some.injEq, Prod.mk.injEq] at h
          obtain ⟨hj, hv⟩ := h
          subst hj; subst hv
          refine ⟨Nat.lt_succ_self _, hp, rfl, ?_, ?_⟩
          · intro i hi hpi
            rcases Nat.lt_succ_iff_lt_or_eq.mp hi with hi2 | hi2
            · exact le_of_lt (lt_of_lt_of_le hlt (hbv ▸ hble i hi2 hpi))
            · subst hi2; exact le_refl _
          · intro i hi hpi
            exact lt_of_lt_of_le hlt (hbv ▸ hble i hi hpi)
        · rw [if_neg hlt] at h
          simp only [Option.some.injEq, Prod.mk.injEq] at h
          obtain ⟨hj, hv⟩ := h
          subst hj; subst hv
          refine ⟨Nat.lt_succ_of_lt hbj, hbp, hbv, ?_, hblt⟩
          intro i hi hpi
          rcases Nat.lt_succ_iff_lt_or_eq.mp hi with hi2 | hi2
          · exact hble i hi2 hpi
          · subst hi2; exact le_of_not_lt fun hc => hlt (hbv ▸ hc)
    · rw [if_neg hp] at h
      obtain ⟨hbj, hbp, hbv, hble, hblt⟩ := ih j v h
      refine ⟨Nat.lt_succ_of_lt hbj, hbp, hbv, ?_, hblt⟩
      intro i hi hpi
      rcases Nat.lt_succ_iff_lt_or_eq.mp hi with hi2 | hi2
      · exact hble i hi2 hpi
      · subst hi2; exact absurd hpi (by simpa using hp)

theorem firstNegIdx_eq_none_iff (l : List ℚ) :
    firstNegIdx l = none ↔ ∀ j, j < l.length → 0 ≤ l.getD j 0 := by
  induction l with
  | nil => simp [firstNegIdx]
  | cons x xs ih =>
    unfold firstNegIdx
    by_cases hx : x < 0
    · rw [if_pos hx]
      simp only [List.length_cons]
      constructor
      · intro h; simp at h
      · intro h
        exact absurd (h 0 (Nat.succ_pos _)) (by simpa using hx)
    · rw [if_neg hx]
      constructor
      · intro h j hj
        cases j with
        | zero => simpa using le_of_not_lt hx
        | succ k =>
          have : firstNegIdx xs = none := by
            rcases hm : firstNegIdx xs with _ | q
            · rfl
            · rw [hm] at h; simp at h
          simpa using ih.mp this k (by simpa using hj)
      · intro h
        have : firstNegIdx xs = none :=
          ih.mpr fun j hj => by simpa using h (j + 1) (by simpa using hj)
        rw [this]; rfl

theorem firstNegIdx_eq_some (l : List ℚ) :
    ∀ j, firstNegIdx l = some j →
      l.getD j 0 < 0 ∧ ∀ i, i < j → 0 ≤ l.getD i 0 := by
  induction l with
  | nil => intro j h; exact Option.noConfusion h
  | cons x xs ih =>
    intro j h
    unfold firstNegIdx at h
    by_cases hx : x < 0
    · rw [if_pos hx] at h
      simp only [Option.some.injEq] at h
      subst h
      exact ⟨by simpa using hx, fun i hi => absurd hi (Nat.not_lt_zero i)⟩
    · rw [if_neg hx] at h
      rcases hm : firstNegIdx xs with _ | k
      · rw [hm] at h; simp at h
      · rw [hm] at h
        simp only [Option.map_some', Option.some.injEq] at h
        subst h
        obtain ⟨hneg, hge⟩ := ih k hm
        refine ⟨by simpa using hneg, ?_⟩
        intro i hi
        cases i with
        | zero => simpa using le_of_not_lt hx
        | succ i2 => simpa using hge i2 (by omega)

theorem has_negative_rhs_eq_false_iff (t : Tableau) :
    t.has_negative_rhs = false ↔ ∀ x ∈ t.rhs, 0 ≤ x := by
  unfold Tableau.has_negative_rhs
  rw [← Bool.not_eq_true, List.any_eq_true]
  constructor
  · intro h x hx
    by_contra hcon
    exact h ⟨x, hx, by simpa using lt_of_not_le hcon⟩
  · rintro h ⟨x, hx, hneg⟩
    exact absurd (h x hx) (by simpa using of_decide_eq_true hneg)

/-- C10: calling `find_initial_bfs()` on a freshly constructed solver whose
tableau is still `None` returns `Ok(true)` for all three strategies — the
negative-RHS check is applied only when a tableau is present — and the solver
state is unchanged. -/
theorem find_initial_bfs_uninitialized :
    SimplexSolver.new.find_initial_bfs = (Except.ok true, SimplexSolver.new)
    ∧ TwoPhaseSimplexSolver.new.find_initial_bfs = (Except.ok true, TwoPhaseSimplexSolver.new)
    ∧ ShadowVertexSimplexSolver.new.find_initial_bfs
        = (Except.ok true, ShadowVertexSimplexSolver.new) :=
  ⟨rfl, rfl, rfl⟩

/-- C9 counterexample: a binary Row-with-Row operation applied to rows of
unequal length does not fail fast — it returns a `Row` truncated to the
shorter length (`zip` semantics), e.g. `[1,2,3] + [10] = [11]`. -/
theorem row_ops_truncate_counterexample :
    Row.add ⟨[1, 2, 3]⟩ ⟨[10]⟩ = ⟨[11]⟩
    ∧ Row.sub ⟨[1, 2, 3]⟩ ⟨[10]⟩ = ⟨[-9]⟩
    ∧ Row.mul ⟨[1, 2, 3]⟩ ⟨[10]⟩ = ⟨[10]⟩
    ∧ Row.div ⟨[1, 2, 3]⟩ ⟨[2]⟩ = ⟨[1/2]⟩ := by
  refine ⟨by decide, by decide, by decide, by decide⟩

/-- C9 (amended): the binary Row-with-Row operations `+ − × ÷` combine the two
rows elementwise by zipping; on rows of equal length the result is the
elementwise combination, and on rows of unequal length the result is silently
truncated to the shorter length (no shape check is performed). -/
theorem row_ops_elementwise (a b : Row) :
    ((Row.add a b).data.length = min a.data.length b.data.length
      ∧ (Row.sub a b).data.length = min a.data.length b.data.length
      ∧ (Row.mul a b).data.length = min a.data.length b.data.length
      ∧ (Row.div a b).data.length = min a.data.length b.data.length)
    ∧ (a.data.length = b.data.length →
        ∀ i, i < a.data.length →
          (Row.add a b).data.getD i 0 = a.data.getD i 0 + b.data.getD i 0
          ∧ (Row.sub a b).data.getD i 0 = a.data.getD i 0 - b.data.getD i 0
          ∧ (Row.mul a b).data.getD i 0 = a.data.getD i 0 * b.data.getD i 0
          ∧ (Row.div a b).data.getD i 0 = a.data.getD i 0 / b.data.getD i 0) := by
  constructor
  · exact ⟨List.length_zipWith .., List.length_zipWith .., List.length_zipWith ..,
      List.length_zipWith ..⟩
  · intro hlen i hi
    have hib : i < b.data.length := hlen ▸ hi
    exact ⟨getD_zipWith _ _ _ i hi hib, getD_zipWith _ _ _ i hi hib,
      getD_zipWith _ _ _ i hi hib, getD_zipWith _ _ _ i hi hib⟩

/-- C9 witness: the amended statement evaluated on the equal-length rows
`[1, 2]` and `[4, 5]` at index `0`. -/
theorem row_ops_elementwise_witness :
    (Row.add ⟨[1, 2]⟩ ⟨[4, 5]⟩).data.length = 2
    ∧ (Row.add ⟨[1, 2]⟩ ⟨[4, 5]⟩).data.getD 0 0 = 1 + 4
    ∧ (Row.div ⟨[1, 2]⟩ ⟨[4, 5]⟩).data.getD 0 0 = 1 / 4 := by
  have h := row_ops_elementwise ⟨[1, 2]⟩ ⟨[4, 5]⟩
  have h2 := h.2 (by decide) 0 (by decide)
  exact ⟨h.1.1, h2.1, h2.2.2.2⟩

/-- C3 counterexample: on the initial tableau of `Max 3x + 2y`
(`x + y ≤ 4`, `2x + y ≤ 5`), the pivot at `(1, 0)` makes variable `0` basic in
row `1`, yet `0` is still listed in `nonbasis` and the leaving slack variable
`3` is not added to it — `pivot` never updates `nonbasis`, so the disjoint
partition is not preserved. -/
theorem pivot_nonbasis_counterexample :
    (exampleTableau.pivot 1 0).basis = [2, 0]
    ∧ 0 ∈ (exampleTableau.pivot 1 0).nonbasis
    ∧ 3 ∉ (exampleTableau.pivot 1 0).nonbasis := by
  refine ⟨by decide, by decide, by decide⟩

/-- C3 (amended): the disjoint basis/nonbasis partition of `{0, …, n+m−1}`
holds after construction by `into_tableau_form` and by `Tableau::new` (given
the asserted square slack shape), but `pivot(r, k)` preserves only the basis
side: it sets `basis[r] = k` and leaves `nonbasis` unchanged, so the entering
variable is still listed in `nonbasis` and the leaving variable is not. -/
theorem basis_nonbasis_partition (p : Problem) (co sl : Matrix)
    (rhs zc zs : List ℚ) (zr : ℚ) (t : Tableau) (r k : Nat)
    (hsq : sl.cols = co.rows) :
    (p.into_tableau_form).basisPartitionInv
    ∧ (Tableau.new co sl rhs zc zs zr).basisPartitionInv
    ∧ (t.pivot r k).nonbasis = t.nonbasis
    ∧ (t.pivot r k).basis = t.basis.set r k := by
  refine ⟨⟨?_, ?_⟩, ⟨?_, ?_⟩, rfl, rfl⟩
  · intro v ⟨hb, hn⟩
    simp only [Problem.into_tableau_form, List.mem_map, List.mem_range] at hb
    simp only [Problem.into_tableau_form, List.mem_range] at hn
    omega
  · intro v
    simp only [Problem.into_tableau_form, List.mem_map, List.mem_range]
    constructor
    · rintro (⟨i, hi, hv⟩ | hv) <;> omega
    · intro hv
      by_cases hn : v < p.objective.length
      · exact Or.inr hn
      · exact Or.inl ⟨v - p.objective.length, by omega, by omega⟩
  · intro v ⟨hb, hn⟩
    simp only [Tableau.new, List.mem_range'] at hb
    simp only [Tableau.new, List.mem_range] at hn
    omega
  · intro v
    simp only [Tableau.new, List.mem_range', List.mem_range, hsq]
    constructor
    · rintro (⟨i, hi, hv⟩ | hv) <;> omega
    · intro hv
      by_cases hn : v < co.cols
      · exact Or.inr hn
      · exact Or.inl ⟨v - co.cols, by omega, by omega⟩

/-- C3 witness: the amended statement evaluated at a direct `Tableau::new`
construction and at the pivot of `exampleTableau` at `(1, 0)`. -/
theorem basis_nonbasis_partition_witness :
    (Tableau.new ⟨1, 1, [1]⟩ ⟨1, 1, [1]⟩ [-1] [0] [0] 0).basisPartitionInv
    ∧ (exampleTableau.pivot 1 0).nonbasis = exampleTableau.nonbasis := by
  have h := basis_nonbasis_partition exampleProblem ⟨1, 1, [1]⟩ ⟨1, 1, [1]⟩
    [-1] [0] [0] 0 exampleTableau 1 0 (by decide)
  exact ⟨h.2.1, h.2.2.1⟩

/-- C6: for a solver of any of the three strategies holding a tableau `t`,
`find_initial_bfs()` leaves the solver unchanged and returns `Ok(true)` when
every rhs entry is `≥ 0`, and the error
`"Infeasible: initial tableau has negative RHS"` otherwise. -/
theorem find_initial_bfs_gate (t : Tableau) (s1 : SimplexSolver)
    (s2 : TwoPhaseSimplexSolver) (s3 : ShadowVertexSimplexSolver)
    (h1 : s1.tableau = some t) (h2 : s2.tableau = some t)
    (h3 : s3.tableau = some t) :
    (s1.find_initial_bfs.2 = s1 ∧ s2.find_initial_bfs.2 = s2
      ∧ s3.find_initial_bfs.2 = s3)
    ∧ ((∀ x ∈ t.rhs, 0 ≤ x) →
        s1.find_initial_bfs.1 = Except.ok true
        ∧ s2.find_initial_bfs.1 = Except.ok true
        ∧ s3.find_initial_bfs.1 = Except.ok true)
    ∧ (¬(∀ x ∈ t.rhs, 0 ≤ x) →
        s1.find_initial_bfs.1 = Except.error "Infeasible: initial tableau has negative RHS"
        ∧ s2.find_initial_bfs.1 = Except.error "Infeasible: initial tableau has negative RHS"
        ∧ s3.find_initial_bfs.1 = Except.error "Infeasible: initial tableau has negative RHS") := by
  have e1 : s1.find_initial_bfs
      = if t.has_negative_rhs then
          (Except.error "Infeasible: initial tableau has negative RHS", s1)
        else (Except.ok true, s1) := by
    unfold SimplexSolver.find_initial_bfs
    rw [h1]
    rfl
  have e2 : s2.find_initial_bfs
      = if t.has_negative_rhs then
          (Except.error "Infeasible: initial tableau has negative RHS", s2)
        else (Except.ok true, s2) := by
    unfold TwoPhaseSimplexSolver.find_initial_bfs
    rw [h2]
    rfl
  have e3 : s3.find_initial_bfs
      = if t.has_negative_rhs then
          (Except.error "Infeasible: initial tableau has negative RHS", s3)
        else (Except.ok true, s3) := by
    unfold ShadowVertexSimplexSolver.find_initial_bfs
    rw [h3]
    rfl
  cases hb : t.has_negative_rhs with
  | false =>
    have hge := (has_negative_rhs_eq_false_iff t).mp hb
    rw [e1, e2, e3, hb]
    exact ⟨⟨rfl, rfl, rfl⟩, fun _ => ⟨rfl, rfl, rfl⟩, fun hc => absurd hge hc⟩
  | true =>
    have hneg : ¬(∀ x ∈ t.rhs, 0 ≤ x) := fun hge =>
      by rw [(has_negative_rhs_eq_false_iff t).mpr hge] at hb; exact Bool.noConfusion hb
    rw [e1, e2, e3, hb]
    exact ⟨⟨rfl, rfl, rfl⟩, fun hc => absurd hc hneg, fun _ => ⟨rfl, rfl, rfl⟩⟩

/-- C6 witness: evaluated on the feasible `exampleTableau` (rhs `[4, 5]`) and
on a tableau with rhs `[-1]`. -/
theorem find_initial_bfs_gate_witness :
    exampleSimplexSolver.find_initial_bfs.1 = Except.ok true
    ∧ ({ SimplexSolver.new with tableau := some negRhsTableau }
        : SimplexSolver).find_initial_bfs.1
        = Except.error "Infeasible: initial tableau has negative RHS" := by
  constructor
  · exact ((find_initial_bfs_gate exampleTableau exampleSimplexSolver
      { TwoPhaseSimplexSolver.new with tableau := some exampleTableau }
      { ShadowVertexSimplexSolver.new with tableau := some exampleTableau }
      rfl rfl rfl).2.1 (by decide)).1
  · exact ((find_initial_bfs_gate negRhsTableau
      { SimplexSolver.new with tableau := some negRhsTableau }
      { TwoPhaseSimplexSolver.new with tableau := some negRhsTableau }
      { ShadowVertexSimplexSolver.new with tableau := some negRhsTableau }
      rfl rfl rfl).2.2 (by decide)).1

/-- C8 counterexample: on `Max 3x + 2y` (`x + y ≤ 4`, `2x + y ≤ 5`) with the
default auxiliary objective `d = 0`, `solve_with_shadow_history` ends
`Optimal` with objective `9`, but `shadow_points` has `4` entries while the
final step's iteration counter is `2`: the length is `iterations + 2`, not
`iterations + 1` (the terminal non-pivoting step also records a point). -/
theorem shadow_points_length_counterexample :
    exampleShadowResult = some (Except.ok exampleShadowRecord)
    ∧ exampleShadowRecord.solution.status = Status.Optimal
    ∧ exampleShadowRecord.solution.objective = 9
    ∧ exampleShadowRecord.history.getLast?.map Step.iteration = some 2
    ∧ exampleShadowRecord.shadow_points.length = 4
    ∧ exampleShadowRecord.shadow_points.length ≠ 2 + 1 := by
  exact ⟨rfl, by decide, by decide, by decide, by decide, by decide⟩

/-- C8 (amended): on `Max 3x + 2y` (`x + y ≤ 4`, `2x + y ≤ 5`) with the
default auxiliary objective `d = 0`, `solve_with_shadow_history` returns
status `Optimal` with objective `9`; `shadow_points` has one more entry than
the emitted step history (`history.length + 1` — equivalently the final
iteration counter plus `2`, since the terminal status-detecting step performs
no pivot), and the second coordinate of its last entry equals the final
objective value. -/
theorem shadow_history_spec :
    exampleShadowResult = some (Except.ok exampleShadowRecord)
    ∧ exampleShadowRecord.solution.status = Status.Optimal
    ∧ exampleShadowRecord.solution.objective = 9
    ∧ exampleShadowRecord.shadow_points.length = exampleShadowRecord.history.length + 1
    ∧ exampleShadowRecord.shadow_points.getLast?.map Prod.snd
        = some exampleShadowRecord.solution.objective := by
  exact ⟨rfl, by decide, by decide, by decide, by decide⟩

theorem zSubAssignScaled_z_rhs (t : Tableau) (other : TableauRow) (k : ℚ) :
    (t.zSubAssignScaled other k).z_rhs = t.z_rhs - other.rhs * k := rfl

theorem foldl_zSubAssignScaled_z_rhs (rows : List TableauRow) (cb : List ℚ)
    (d : TableauRow) (tb : Tableau) (m : Nat) :
    ((List.range m).foldl
        (fun acc i => acc.zSubAssignScaled (rows.getD i d) (cb.getD i 0)) tb).z_rhs
      = tb.z_rhs - ∑ i in Finset.range m, (rows.getD i d).rhs * cb.getD i 0 := by
  induction m with
  | zero => simp
  | succ m2 ih =>
    rw [List.range_succ, List.foldl_append, Finset.sum_range_succ]
    simp only [List.foldl_cons, List.foldl_nil, zSubAssignScaled_z_rhs]
    rw [ih]
    ring

/-- C2: after the two-phase solver's phase transition `set_z_to_c`, the
tableau's `z_rhs` equals the stored objective `c` evaluated at the current
basic feasible solution: `Σ_i c_{basis[i]} · rhs[i] + c_rhs` (the
negate-and-re-add tail `z_rhs = 2·c_rhs − z_rhs_after_reduction` computes
exactly this value). -/
theorem set_z_to_c_z_rhs (s : TwoPhaseSimplexSolver) (tab : Tableau)
    (h : s.tableau = some tab) (hb : tab.basis.length = tab.rowsCount)
    (hr : tab.rhs.length = tab.rowsCount) :
    s.set_z_to_c.tableau.map Tableau.z_rhs
      = some ((∑ i in Finset.range tab.rowsCount,
          (if tab.basis.getD i 0 < s.c_coeffs.length
            then s.c_coeffs.getD (tab.basis.getD i 0) 0
            else s.c_slack.getD (tab.basis.getD i 0 - s.c_coeffs.length) 0)
          * tab.rhs.getD i 0)
        + s.c_rhs) := by
  unfold TwoPhaseSimplexSolver.set_z_to_c
  rw [h]
  simp only [Option.map_some', Option.some.injEq]
  rw [foldl_zSubAssignScaled_z_rhs]
  have hsum : ∀ i ∈ Finset.range tab.rowsCount,
      (((List.range tab.rowsCount).map fun i =>
          Tableau.row { tab with z_coeffs := s.c_coeffs, z_slack := s.c_slack
                                 z_rhs := s.c_rhs } i).getD i ⟨⟨[]⟩, ⟨[]⟩, 0⟩).rhs
        * ((tab.basis.map fun varIdx =>
            if varIdx < s.c_coeffs.length then s.c_coeffs.getD varIdx 0
            else s.c_slack.getD (varIdx - s.c_coeffs.length) 0).getD i 0)
      = (if tab.basis.getD i 0 < s.c_coeffs.length
          then s.c_coeffs.getD (tab.basis.getD i 0) 0
          else s.c_slack.getD (tab.basis.getD i 0 - s.c_coeffs.length) 0)
        * tab.rhs.getD i 0 := by
    intro i hi
    have him : i < tab.rowsCount := Finset.mem_range.mp hi
    rw [getD_range_map _ _ _ _ him]
    rw [getD_map_lt _ _ _ _ 0 (by omega : i < tab.basis.length)]
    show tab.rhs.getD i 0 * _ = _
    rw [mul_comm]
  rw [Finset.sum_congr rfl hsum]
  ring

/-- C2 witness: `set_z_to_c` evaluated on `exampleTableau` after one pivot at
`(1, 0)` with stored `c = ([-3, -2], [0, 0])` and `c_rhs = 7`: the basis is
`[2, 0]`, so the value is `0·(3/2) + (−3)·(5/2) + 7 = −1/2`. -/
theorem set_z_to_c_z_rhs_witness :
    exampleTwoPhaseSolver.set_z_to_c.tableau.map Tableau.z_rhs = some (-1/2) := by
  rw [set_z_to_c_z_rhs exampleTwoPhaseSolver (exampleTableau.pivot 1 0) rfl
    (by decide) (by decide)]
  decide

/-- C7: `into_tableau_form` builds an `m × m` slack block whose row `i` is
`+1` at column `i` for a normalized `≤` constraint, `−1` for `≥`, and all
zeros for `=`; `z_coeffs` is the negated objective for `Max` and the objective
itself for `Min`, with `z_slack = 0^m` and `z_rhs = 0`; and
`basis = [n, …, n+m−1]`, `nonbasis = [0, …, n−1]`. -/
theorem into_tableau_form_spec (p : Problem) :
    (p.into_tableau_form).slack.rows = p.constraints.length
    ∧ (p.into_tableau_form).slack.cols = p.constraints.length
    ∧ (∀ i j, i < p.constraints.length → j < p.constraints.length →
        (p.into_tableau_form).slack.get i j =
          (match (p.constraints.getD i ⟨[], Relation.Equal, 0⟩).normalise.relation with
            | Relation.LessEqual => if j = i then 1 else 0
            | Relation.GreaterEqual => if j = i then -1 else 0
            | Relation.Equal => 0))
    ∧ (p.into_tableau_form).z_coeffs
        = (if p.goal = Goal.Max then p.objective.map (fun v => -v) else p.objective)
    ∧ (p.into_tableau_form).z_slack = List.replicate p.constraints.length 0
    ∧ (p.into_tableau_form).z_rhs = 0
    ∧ (p.into_tableau_form).basis = List.range' p.objective.length p.constraints.length
    ∧ (p.into_tableau_form).nonbasis = List.range p.objective.length := by
  refine ⟨rfl, rfl, ?_, ?_, rfl, rfl, ?_, rfl⟩
  · intro i j hi hj
    show (((List.range p.constraints.length).zip (p.constraints.map Constraint.normalise)
        |>.map fun q => slackRowFor p.constraints.length q.1 q.2.relation).flatten).getD
        (i * p.constraints.length + j) 0 = _
    have hlen : ((List.range p.constraints.length).zip
        (p.constraints.map Constraint.normalise)).length = p.constraints.length := by
      simp
    rw [getD_flatten_uniform _ p.constraints.length
      (fun r hr => by
        rcases List.mem_map.mp hr with ⟨q, _, hq⟩
        rw [← hq]
        simp [slackRowFor])
      i j (by simpa [hlen] using hi) hj]
    rw [getD_map_lt _ _ _ _ (0, ⟨[], Relation.Equal, 0⟩) (by simpa [hlen] using hi)]
    have hzip : (((List.range p.constraints.length).zip
          (p.constraints.map Constraint.normalise)).getD i (0, ⟨[], Relation.Equal, 0⟩))
        = (i, (p.constraints.getD i ⟨[], Relation.Equal, 0⟩).normalise) := by
      rw [List.getD_eq_getElem _ _ (by simpa [hlen] using hi)]
      rw [List.getElem_zip]
      simp only [List.getElem_range, List.getElem_map, Prod.mk.injEq, true_and]
      rw [List.getD_eq_getElem _ _ hi]
    rw [hzip]
    show (slackRowFor p.constraints.length i
        (p.constraints.getD i ⟨[], Relation.Equal, 0⟩).normalise.relation).getD j 0 = _
    unfold slackRowFor
    rw [getD_range_map _ _ _ _ hj]
    rcases (p.constraints.getD i ⟨[], Relation.Equal, 0⟩).normalise.relation with _ | _ | _
    · rfl
    · rfl
    · simp
  · show p.objective.map (fun v => if p.goal = Goal.Max then -v else v) = _
    cases p.goal <;> simp
  · show (List.range p.constraints.length).map (fun i => p.objective.length + i) = _
    rw [List.range'_eq_map_range]

/-- C7 witness: the spec evaluated on `Max x + y` with `x ≤ 5`, `y ≥ 2`,
`x + y = 10` (spec §8 scenario 3): slack rows `(+1, −1, 0)` on the diagonal
and `basis = [2, 3, 4]`. -/
theorem into_tableau_form_spec_witness :
    mixedProblem.into_tableau_form.slack.get 0 0 = 1
    ∧ mixedProblem.into_tableau_form.slack.get 1 1 = -1
    ∧ mixedProblem.into_tableau_form.slack.get 2 2 = 0
    ∧ mixedProblem.into_tableau_form.slack.get 1 0 = 0
    ∧ mixedProblem.into_tableau_form.basis = List.range' 2 3 := by
  have h := into_tableau_form_spec mixedProblem
  refine ⟨?_, ?_, ?_, ?_, h.2.2.2.2.2.2.1⟩
  · rw [h.2.2.1 0 0 (by decide) (by decide)]; decide
  · rw [h.2.2.1 1 1 (by decide) (by decide)]; decide
  · rw [h.2.2.1 2 2 (by decide) (by decide)]; decide
  · rw [h.2.2.1 1 0 (by decide) (by decide)]; decide

/-- C4: `ratio_test(k)` returns `None` iff no constraint row has a positive
entry in column `k`; otherwise it returns the smallest row index attaining the
minimum ratio `rhs[i] / tableau(i, k)` over rows with a positive entry (ties
broken by the smallest row index). -/
theorem ratio_test_spec (t : Tableau) (k : Nat) :
    (t.ratio_test k = none ↔ ∀ i, i < t.rowsCount → ¬(0 < t.entry i k))
    ∧ (∀ r, t.ratio_test k = some r →
        r < t.rowsCount ∧ 0 < t.entry r k
        ∧ (∀ i, i < t.rowsCount → 0 < t.entry i k →
            t.rhs.getD r 0 / t.entry r k ≤ t.rhs.getD i 0 / t.entry i k)
        ∧ (∀ i, i < r → 0 < t.entry i k →
            t.rhs.getD r 0 / t.entry r k < t.rhs.getD i 0 / t.entry i k)) := by
  constructor
  · unfold Tableau.ratio_test
    rw [Option.map_eq_none', argminFold_eq_none_iff]
    constructor
    · intro h i hi
      simpa using h i hi
    · intro h i hi
      simpa using h i hi
  · intro r hr
    unfold Tableau.ratio_test at hr
    rcases hm : argminFold (fun i => decide (0 < t.entry i k))
        (fun i => t.rhs.getD i 0 / t.entry i k) t.rowsCount with _ | q
    · rw [hm] at hr
      exact Option.noConfusion hr
    · rw [hm] at hr
      simp only [Option.map_some', Option.some.injEq] at hr
      obtain ⟨hj, hp, hv, hle, hlt⟩ := argminFold_eq_some _ _ _ q.1 q.2 (by
        rw [hm])
      subst hr
      refine ⟨hj, of_decide_eq_true hp, ?_, ?_⟩
      · intro i hi hpos
        have := hle i hi (decide_eq_true hpos)
        rw [hv] at this
        exact this
      · intro i hi hpos
        have := hlt i hi (decide_eq_true hpos)
        rw [hv] at this
        exact this

/-- C4 witness: on `exampleTableau`, column `0` has entries `1` and `2` with
ratios `4` and `5/2`; the test picks row `1`. -/
theorem ratio_test_spec_witness :
    exampleTableau.ratio_test 0 = some 1
    ∧ 0 < exampleTableau.entry 1 0
    ∧ exampleTableau.rhs.getD 1 0 / exampleTableau.entry 1 0
        ≤ exampleTableau.rhs.getD 0 0 / exampleTableau.entry 0 0 := by
  have h := (ratio_test_spec exampleTableau 0).2 1 (by decide)
  exact ⟨by decide, h.2.1, h.2.2.1 0 (by decide) (by decide)⟩

theorem shadowCandidate_iff (r_d r_c : List ℚ) (j : Nat) :
    shadowCandidate r_d r_c j = true ↔ shadowCandidateSpec r_d r_c j := by
  unfold shadowCandidate shadowCandidateSpec shadowLambda
  simp only [Bool.and_eq_true, Bool.not_eq_eq_eq_not, Bool.not_true,
    decide_eq_false_iff_not, decide_eq_true_eq, not_lt, not_le]
  constructor
  · rintro ⟨⟨⟨⟨h1, h2⟩, h3⟩, h4⟩, h5⟩
    exact ⟨h1, h2, h3, lt_of_not_le (by simpa using h4), le_of_not_lt (by simpa using h5)⟩
  · rintro ⟨h1, h2, h3, h4, h5⟩
    exact ⟨⟨⟨⟨h1, h2⟩, h3⟩, by simpa using not_le_of_lt h4⟩, by simpa using not_lt_of_le h5⟩

/-- C5: `find_shadow_pivot_col` returns the candidate column of minimum
breakpoint `λ_j = r^d_j / (r^d_j − r^c_j)` — candidates being the columns with
`r^d_j ≥ 0`, `r^c_j < 0`, a denominator strictly positive under the scalar's
positivity predicate, and `λ_j ∈ (0, 1]` — with ties broken by the smallest
column index; when no candidate exists it falls back to the first column with
`r^c_j < 0`, and it returns `None` exactly when no `r^c_j` is negative. -/
theorem find_shadow_pivot_col_spec (r_d r_c : List ℚ)
    (hlen : r_d.length = r_c.length) :
    (find_shadow_pivot_col r_d r_c = none ↔ ∀ j, j < r_c.length → 0 ≤ r_c.getD j 0)
    ∧ (∀ j, find_shadow_pivot_col r_d r_c = some j →
        ((∃ i, i < r_d.length ∧ shadowCandidateSpec r_d r_c i) →
          shadowCandidateSpec r_d r_c j ∧ j < r_d.length
          ∧ (∀ i, i < r_d.length → shadowCandidateSpec r_d r_c i →
              shadowLambda r_d r_c j ≤ shadowLambda r_d r_c i)
          ∧ (∀ i, i < j → shadowCandidateSpec r_d r_c i →
              shadowLambda r_d r_c j < shadowLambda r_d r_c i))
        ∧ ((∀ i, i < r_d.length → ¬shadowCandidateSpec r_d r_c i) →
            r_c.getD j 0 < 0 ∧ ∀ i, i < j → 0 ≤ r_c.getD i 0)) := by
  constructor
  · unfold find_shadow_pivot_col
    rcases hm : argminFold (shadowCandidate r_d r_c) (shadowLambda r_d r_c)
        r_d.length with _ | q
    · rw [firstNegIdx_eq_none_iff]
    · constructor
      · intro h
        exact Option.noConfusion h
      · intro h
        obtain ⟨hj, hp, _, _, _⟩ := argminFold_eq_some _ _ _ q.1 q.2 hm
        have hspec := (shadowCandidate_iff r_d r_c q.1).mp hp
        exact absurd hspec.2.1 (not_lt_of_le (h q.1 (by omega)))
  · intro j hj
    unfold find_shadow_pivot_col at hj
    rcases hm : argminFold (shadowCandidate r_d r_c) (shadowLambda r_d r_c)
        r_d.length with _ | q
    · rw [hm] at hj
      obtain ⟨hneg, hbefore⟩ := firstNegIdx_eq_some r_c j hj
      constructor
      · rintro ⟨i, hi, hspec⟩
        have := (argminFold_eq_none_iff _ _ _).mp hm i hi
        exact absurd ((shadowCandidate_iff r_d r_c i).mpr hspec)
          (by simp [this])
      · intro _
        exact ⟨hneg, hbefore⟩
    · rw [hm] at hj
      simp only [Option.some.injEq] at hj
      obtain ⟨hjlt, hp, hv, hle, hlt⟩ := argminFold_eq_some _ _ _ q.1 q.2 hm
      subst hj
      constructor
      · intro _
        refine ⟨(shadowCandidate_iff r_d r_c q.1).mp hp, hjlt, ?_, ?_⟩
        · intro i hi hspec
          have := hle i hi ((shadowCandidate_iff r_d r_c i).mpr hspec)
          rw [hv] at this
          exact this
        · intro i hi hspec
          have := hlt i hi ((shadowCandidate_iff r_d r_c i).mpr hspec)
          rw [hv] at this
          exact this
      · intro hnone
        exact absurd ((shadowCandidate_iff r_d r_c q.1).mp hp)
          (hnone q.1 hjlt)

/-- C5 witness: for `r_d = [3, 1]`, `r_c = [-1, -1]` the breakpoints are
`3/4` and `1/2`, so column `1` is chosen. -/
theorem find_shadow_pivot_col_spec_witness :
    find_shadow_pivot_col [3, 1] [-1, -1] = some 1
    ∧ shadowCandidateSpec [3, 1] [-1, -1] 1
    ∧ shadowLambda [3, 1] [-1, -1] 1 ≤ shadowLambda [3, 1] [-1, -1] 0 := by
  have h := (find_shadow_pivot_col_spec [3, 1] [-1, -1] (by decide)).2 1 (by decide)
  have h2 := h.1 ⟨1, by decide, by decide⟩
  exact ⟨by decide, h2.1, h2.2.2.1 0 (by decide) (by decide)⟩

theorem pivotStage1_entry (t : Tableau) (r k : Nat) (hwf : t.WF) (i c : Nat)
    (hi : i < t.rowsCount) (hc : c < t.coefficients.cols + t.slack.cols) :
    (t.pivotStage1 r k).entry i c
      = if i = r then t.entry i c * (1 / t.entry r k) else t.entry i c := by
  obtain ⟨h1, h2, h3, h4, h5, h6, h7, h8⟩ := hwf
  have hi2 : i < t.coefficients.rows := hi
  unfold Tableau.pivotStage1 Tableau.entry
  simp only [Matrix.mapWithIdx_cols]
  by_cases hca : c < t.coefficients.cols
  · simp only [if_pos hca]
    rw [Matrix.get_mapWithIdx _ _ _ _ h1 hi2 hca]
  · simp only [if_neg hca, if_pos hc]
    rw [Matrix.get_mapWithIdx _ _ _ _ h2 (by omega : i < t.slack.rows)
      (by omega : c - t.coefficients.cols < t.slack.cols)]

theorem pivotStage1_rhs (t : Tableau) (r k : Nat) (hwf : t.WF) (i : Nat)
    (hi : i < t.rowsCount) :
    (t.pivotStage1 r k).rhs.getD i 0
      = if i = r then t.rhs.getD i 0 * (1 / t.entry r k) else t.rhs.getD i 0 := by
  obtain ⟨h1, h2, h3, h4, h5, h6, h7, h8⟩ := hwf
  have hi2 : i < t.coefficients.rows := hi
  show (mapIdxFrom _ 0 t.rhs).getD i 0 = _
  rw [getD_mapIdxFrom _ _ _ _ (by omega : i < t.rhs.length), Nat.zero_add]

theorem pivotStage1_WF (t : Tableau) (r k : Nat) (hwf : t.WF) :
    (t.pivotStage1 r k).WF := by
  obtain ⟨h1, h2, h3, h4, h5, h6, h7, h8⟩ := hwf
  exact ⟨by simpa [Tableau.pivotStage1, Matrix.mapWithIdx_data_length] using h1,
    by simpa [Tableau.pivotStage1, Matrix.mapWithIdx_data_length] using h2,
    h3, h4, by simpa [Tableau.pivotStage1, length_mapIdxFrom] using h5, h6, h7, h8⟩

theorem pivotStage2_entry (t1 : Tableau) (r k : Nat) (nv : List ℚ) (nr : ℚ)
    (hwf : t1.WF) (i c : Nat) (hi : i < t1.rowsCount)
    (hc : c < t1.coefficients.cols + t1.slack.cols) :
    (t1.pivotStage2 r k nv nr).entry i c
      = if i = r then t1.entry i c
        else t1.entry i c - t1.entry i k * nv.getD c 0 := by
  obtain ⟨h1, h2, h3, h4, h5, h6, h7, h8⟩ := hwf
  have hi2 : i < t1.coefficients.rows := hi
  unfold Tableau.pivotStage2 Tableau.entry
  simp only [Matrix.mapWithIdx_cols]
  by_cases hca : c < t1.coefficients.cols
  · simp only [if_pos hca]
    rw [Matrix.get_mapWithIdx _ _ _ _ h1 hi2 hca]
  · simp only [if_neg hca, if_pos hc]
    rw [Matrix.get_mapWithIdx _ _ _ _ h2 (by omega : i < t1.slack.rows)
      (by omega : c - t1.coefficients.cols < t1.slack.cols)]
    have hcc : t1.coefficients.cols + (c - t1.coefficients.cols) = c := by omega
    by_cases hir : i = r <;> simp [hir, hcc]

/-- C1: for a well-formed tableau and valid pivot indices `(r, k)` with a
nonzero pivot element, after `pivot(r, k)` the logical column `k` is the
`r`-th unit vector: `tableau(r, k) = 1`, `tableau(i, k) = 0` for every other
constraint row `i`, the z-row entry at `k` is `0`, and `basis[r] = k`. -/
theorem pivot_unit_column (t : Tableau) (r k : Nat) (hwf : t.WF)
    (hr : r < t.rowsCount) (hk : k < t.coefficients.cols + t.slack.cols)
    (hp : t.entry r k ≠ 0) :
    (t.pivot r k).entry r k = 1
    ∧ (∀ i, i < t.rowsCount → i ≠ r → (t.pivot r k).entry i k = 0)
    ∧ (t.pivot r k).zRowGet k = 0
    ∧ (t.pivot r k).basis.getD r 0 = k := by
  have hwf1 := pivotStage1_WF t r k hwf
  obtain ⟨h1, h2, h3, h4, h5, h6, h7, h8⟩ := hwf
  have hr2 : r < t.coefficients.rows := hr
  have hvar : t.colsCount - 1 = t.coefficients.cols + t.slack.cols := by
    simp [Tableau.colsCount]
  -- the let-bound intermediates of `pivot`
  have hE : ∀ i c, (t.pivot r k).entry i c
      = ((t.pivotStage1 r k).pivotStage2 r k
          ((List.range (t.colsCount - 1)).map fun j => (t.pivotStage1 r k).entry r j)
          ((t.pivotStage1 r k).rhs.getD r 0)).entry i c := fun i c => rfl
  have hnv : ∀ c, c < t.coefficients.cols + t.slack.cols →
      ((List.range (t.colsCount - 1)).map fun j => (t.pivotStage1 r k).entry r j).getD c 0
        = (t.pivotStage1 r k).entry r c := by
    intro c hc
    exact getD_range_map _ _ _ _ (by rw [hvar]; exact hc)
  have hpivot1 : (t.pivotStage1 r k).entry r k = 1 := by
    rw [pivotStage1_entry t r k ⟨h1, h2, h3, h4, h5, h6, h7, h8⟩ r k hr hk, if_pos rfl]
    exact mul_one_div_cancel hp
  constructor
  · rw [hE r k]
    rw [pivotStage2_entry _ r k _ _ hwf1 r k hr hk, if_pos rfl]
    exact hpivot1
  constructor
  · intro i hi hir
    rw [hE i k]
    rw [pivotStage2_entry _ r k _ _ hwf1 i k hi hk, if_neg hir]
    rw [hnv k hk, hpivot1]
    ring
  constructor
  · -- the z-row entry at column k
    have hzc : (t.pivot r k).z_coeffs
        = mapIdxFrom (fun j x => x - t.zRowGet k *
            (((List.range (t.colsCount - 1)).map fun j2 =>
              (t.pivotStage1 r k).entry r j2).getD j 0)) 0 t.z_coeffs := rfl
    have hzs : (t.pivot r k).z_slack
        = mapIdxFrom (fun j x => x - t.zRowGet k *
            (((List.range (t.colsCount - 1)).map fun j2 =>
              (t.pivotStage1 r k).entry r j2).getD (t.z_coeffs.length + j) 0)) 0
            t.z_slack := rfl
    unfold Tableau.zRowGet
    rw [hzc, hzs]
    simp only [length_mapIdxFrom]
    by_cases hka : k < t.z_coeffs.length
    · rw [if_pos hka]
      rw [getD_mapIdxFrom _ _ _ _ hka, Nat.zero_add, hnv k hk, hpivot1]
      have hzk : t.zRowGet k = t.z_coeffs.getD k 0 := by
        unfold Tableau.zRowGet
        rw [if_pos hka]
      rw [← hzk]
      ring
    · rw [if_neg hka, if_pos (by omega : k < t.z_coeffs.length + t.z_slack.length)]
      rw [getD_mapIdxFrom _ _ _ _ (by omega : k - t.z_coeffs.length < t.z_slack.length),
        Nat.zero_add]
      have hidx : t.z_coeffs.length + (k - t.z_coeffs.length) = k := by omega
      rw [hidx, hnv k hk, hpivot1]
      have hzk : t.zRowGet k = t.z_slack.getD (k - t.z_coeffs.length) 0 := by
        unfold Tableau.zRowGet
        rw [if_neg hka, if_pos (by omega : k < t.z_coeffs.length + t.z_slack.length)]
      rw [← hzk]
      ring
  · have hbase : (t.pivot r k).basis = t.basis.set r k := rfl
    rw [hbase]
    exact getD_set_self t.basis r k 0 (by omega : r < t.basis.length)

/-- C1 witness: the pivot of `exampleTableau` at `(1, 0)` (pivot element `2`):
column `0` becomes the second unit vector and `basis[1] = 0`. -/
theorem pivot_unit_column_witness :
    (exampleTableau.pivot 1 0).entry 1 0 = 1
    ∧ (exampleTableau.pivot 1 0).entry 0 0 = 0
    ∧ (exampleTableau.pivot 1 0).zRowGet 0 = 0
    ∧ (exampleTableau.pivot 1 0).basis.getD 1 0 = 0 := by
  have h := pivot_unit_column exampleTableau 1 0 (by decide) (by decide) (by decide)
    (by decide)
  exact ⟨h.1, h.2.1 0 (by decide) (by decide), h.2.2.1, h.2.2.2⟩

end LinprogEngine
